import Mathlib

/-!
Verification development for `redisclient.h`, a C++ client for the redis
wire protocol.  The code is shallowly embedded: every socket is replaced by
the byte stream it would deliver (a `List Char`, one `Char` per byte), and
each reader/decoder becomes a pure function from the stream to
`Except client_exception (result × remaining stream)`.  Thrown C++
exceptions become `Except.error` values carrying the exception kind and
message.
-/

set_option maxHeartbeats 1000000

deriving instance DecidableEq for Except

/-- A byte string: one `Char` per byte, as in `std::string`. -/
abbrev Bytes := List Char

/-- Convenience: the bytes of a Lean string literal. -/
def bs (s : String) : Bytes := s.data

/-- The exceptions the client can throw.  `connection_error`,
`protocol_error`, `key_error` and `value_error` are the four
`redis::redis_error` subclasses of the source; `runtime_error` models
`std::runtime_error` (thrown by the cluster-mode guards), and
`bad_lexical_cast` models `boost::bad_lexical_cast` (thrown by
`boost::lexical_cast` on non-numeric input) — the last two are *not* part
of the client's `redis_error` taxonomy. -/
inductive client_exception
  | connection_error (msg : Bytes)
  | protocol_error (msg : Bytes)
  | key_error (msg : Bytes)
  | value_error (msg : Bytes)
  | runtime_error (msg : Bytes)
  | bad_lexical_cast
deriving DecidableEq

/-- True exactly on the `redis::protocol_error` kind. -/
def client_exception.isProtocol : client_exception → Bool
  | .protocol_error _ => true
  | _ => false

/-- Models `rtrim(line, REDIS_LBR)`: erase everything after the last
character that is not `'\r'` or `'\n'` (`find_last_not_of` + `erase`). -/
def rtrim_lbr (l : Bytes) : Bytes :=
  (l.reverse.dropWhile (fun c => c = '\r' || c = '\n')).reverse

/-- Models `read_n(socket, n)`: loop on `recv` until exactly `n` bytes are
collected; if the peer closes first (`recv` returns 0, i.e. the stream is
exhausted), throw `connection_error("connection was closed")`. -/
def read_n (stream : Bytes) (n : Nat) : Except client_exception (Bytes × Bytes) :=
  if stream.length < n then .error (.connection_error (bs "connection was closed"))
  else .ok (stream.take n, stream.drop n)

/-- Models the loop of `read_line(socket, max_size)`.  The source peeks a
64-byte window (`MSG_PEEK`), scans it with `memchr` for `'\n'`, and then
consumes exactly the bytes up to and including the delimiter (or the whole
window when no delimiter is in it); on a deterministic byte stream this has
exactly the byte-by-byte semantics below.  `total_bytes_read` is carried
along unchanged, exactly as in the source, where it is initialized to 0 and
never updated afterwards, so the `total_bytes_read < max_size` budget test
never fails. -/
def read_line_go (oss : Bytes) (total_bytes_read max_size : Nat) :
    Bytes → Except client_exception (Bytes × Bytes)
  | [] =>
    if total_bytes_read < max_size then
      .error (.connection_error (bs "connection was closed"))
    else
      .ok (rtrim_lbr oss, [])
  | c :: s =>
    if total_bytes_read < max_size then
      if c = '\n' then .ok (rtrim_lbr (oss ++ [c]), s)
      else read_line_go (oss ++ [c]) total_bytes_read max_size s
    else
      .ok (rtrim_lbr oss, c :: s)

/-- Models `read_line(socket, max_size)`: return the next line with the
trailing CR/LF stripped, consuming nothing past the delimiter. -/
def read_line (stream : Bytes) (max_size : Nat := 2048) :
    Except client_exception (Bytes × Bytes) :=
  read_line_go [] 0 max_size stream

/-- The character for a decimal digit, as produced by `std::ostream`. -/
def toDigitChar (d : Nat) : Char := Char.ofNat (48 + d)

/-- Decimal digits of `n` (empty for 0), most significant first.  The
first argument is fuel for structural recursion; `n` itself is enough. -/
def natDigitsAux : Nat → Nat → List Char
  | _, 0 => []
  | 0, _ + 1 => []
  | fuel + 1, n + 1 =>
    natDigitsAux fuel ((n + 1) / 10) ++ [toDigitChar ((n + 1) % 10)]

/-- Decimal rendering of a natural number, as `std::ostream <<` and
`boost::lexical_cast<std::string>` produce it. -/
def natRepr (n : Nat) : List Char :=
  if n = 0 then ['0'] else natDigitsAux n n

/-- Decimal rendering of a signed integer (`long`). -/
def intRepr (i : Int) : List Char :=
  if i < 0 then '-' :: natRepr i.natAbs else natRepr i.toNat

/-- Value of an ASCII digit character, `none` on anything else. -/
def digitVal? (c : Char) : Option Nat :=
  if 48 ≤ c.toNat ∧ c.toNat ≤ 57 then some (c.toNat - 48) else none

/-- Left-to-right accumulation of decimal digits. -/
def parseDigits : List Char → Nat → Option Nat
  | [], acc => some acc
  | c :: cs, acc =>
    match digitVal? c with
    | some d => parseDigits cs (acc * 10 + d)
    | none => none

/-- At least one digit, all digits. -/
def parseDigits1 (s : List Char) : Option Nat :=
  if s = [] then none else parseDigits s 0

/-- Models `boost::lexical_cast<long>(s)` on a byte string: an optional
sign followed by one or more decimal digits, nothing else (lexical_cast
does not skip whitespace and requires the whole input to be consumed);
`none` models the thrown `boost::bad_lexical_cast`.  The embedding uses
unbounded `Int` for `long`; no claim involves values near overflow. -/
def parse_int? (s : List Char) : Option Int :=
  match s with
  | [] => none
  | c :: cs =>
    if c = '-' then (parseDigits1 cs).map (fun (n : Nat) => -(n : Int))
    else if c = '+' then (parseDigits1 cs).map (fun (n : Nat) => (n : Int))
    else (parseDigits1 (c :: cs)).map (fun (n : Nat) => (n : Int))

/-- Models `makecmd`'s `operator std::string`: write `*<n>\r\n`, then for
each stored line write `$<size>\r\n<line>\r\n`, appending to a single
output buffer (the `ostringstream` loop). -/
def makecmd (lines : List Bytes) : Bytes :=
  lines.foldl
    (fun acc param =>
      acc ++ ('$' :: natRepr param.length ++ bs "\r\n" ++ param ++ bs "\r\n"))
    ('*' :: natRepr lines.length ++ bs "\r\n")

/-- The request framing exactly as the specification words it: `*<argc>\r\n`
then, for each argument in order, `$<len>\r\n<bytes>\r\n` where `len` is the
exact byte length of that argument. -/
def makecmd_wire_spec (lines : List Bytes) : Bytes :=
  '*' :: natRepr lines.length ++ bs "\r\n" ++
    (lines.map (fun a => '$' :: natRepr a.length ++ bs "\r\n" ++ a ++ bs "\r\n")).flatten

/-- The sentinel `missing_value()` returned for a `$-1` bulk reply. -/
def missing_value : Bytes := bs "**nonexistent-key**"

/-- Models `recv_single_line_reply_`: read a line; an empty line is a
protocol error; a line starting with `-ERR ` is a protocol error carrying
the remainder of the line (or "unknown error" when that is empty); a line
not starting with `+` is a protocol error; otherwise return the line after
the `+`. -/
def recv_single_line_reply (stream : Bytes) :
    Except client_exception (Bytes × Bytes) := do
  let (line, rest) ← read_line stream 2048
  if line = [] then
    throw (.protocol_error (bs "empty single line reply"))
  else if (bs "-ERR ").isPrefixOf line then
    let error_msg := line.drop (bs "-ERR ").length
    throw (.protocol_error (if error_msg = [] then bs "unknown error" else error_msg))
  else if line.headD (Char.ofNat 0) ≠ '+' then
    throw (.protocol_error (bs "unexpected prefix for status reply"))
  else
    return (line.drop 1, rest)

/-- Models `recv_ok_reply_`: the status must be exactly `OK`. -/
def recv_ok_reply (stream : Bytes) : Except client_exception Bytes := do
  let (line, rest) ← recv_single_line_reply stream
  if line ≠ bs "OK" then throw (.protocol_error (bs "expected OK response"))
  return rest

/-- Models the `recv_bulk_reply_(socket, prefix)` overload: read a line,
require its first byte to equal the given marker (an empty line yields the
NUL byte, as `std::string::operator[]` does at index 0 of an empty string,
and thus fails the comparison), and `boost::lexical_cast` the remainder of
the line to a signed integer. -/
def recv_bulk_len (stream : Bytes) (marker : Char) :
    Except client_exception (Int × Bytes) := do
  let (line, rest) ← read_line stream 2048
  if line.headD (Char.ofNat 0) ≠ marker then
    throw (.protocol_error (bs "unexpected prefix for bulk reply"))
  else
    match parse_int? (line.drop 1) with
    | some n => return (n, rest)
    | none => throw .bad_lexical_cast

/-- Models `recv_bulk_reply_(socket)`: read the `$<length>` header; length
−1 returns the missing-value sentinel; otherwise read `length + 2` bytes,
check non-emptiness and the exact length, and return the data with its
trailing two bytes (`data.erase(data.size() - 2)`) removed. -/
def recv_bulk_reply (stream : Bytes) :
    Except client_exception (Bytes × Bytes) := do
  let (length, rest) ← recv_bulk_len stream '$'
  if length = -1 then
    return (missing_value, rest)
  else
    let real_length : Int := length + 2
    let (data, rest2) ← read_n rest real_length.toNat
    if data = [] then
      throw (.protocol_error (bs "invalid bulk reply data; empty"))
    else if (data.length : Int) ≠ real_length then
      throw (.protocol_error (bs "invalid bulk reply data; data of unexpected length"))
    else
      return (data.take (data.length - 2), rest2)

/-- The loop of `recv_multi_bulk_reply_`: `length` successive bulk decodes
pushed back in order. -/
def recv_bulks : Nat → Bytes → Except client_exception (List Bytes × Bytes)
  | 0, stream => .ok ([], stream)
  | m + 1, stream => do
    let (b, rest) ← recv_bulk_reply stream
    let (tl, rest2) ← recv_bulks m rest
    return (b :: tl, rest2)

/-- Models `recv_multi_bulk_reply_(socket, string_vector&)`: read the
`*<count>` header; count −1 throws `key_error("no such key")`; otherwise
perform exactly `count` bulk decodes, in order, and return both the decoded
sequence and the declared count (the function's return value). -/
def recv_multi_bulk_reply (stream : Bytes) :
    Except client_exception (List Bytes × Int × Bytes) := do
  let (length, rest) ← recv_bulk_len stream '*'
  if length = -1 then
    throw (.key_error (bs "no such key"))
  else
    let (out, rest2) ← recv_bulks length.toNat rest
    return (out, length, rest2)

/-- The loop of the `string_set` overload: `length` successive bulk decodes
inserted into the set. -/
def recv_bulks_set :
    Nat → Bytes → Finset Bytes → Except client_exception (Finset Bytes × Bytes)
  | 0, stream, out => .ok (out, stream)
  | m + 1, stream, out => do
    let (b, rest) ← recv_bulk_reply stream
    recv_bulks_set m rest (insert b out)

/-- Models `recv_multi_bulk_reply_(socket, string_set&)`: as the vector
overload, but each decoded bulk is inserted into the (unordered) set. -/
def recv_multi_bulk_reply_set (stream : Bytes) (out : Finset Bytes) :
    Except client_exception (Finset Bytes × Int × Bytes) := do
  let (length, rest) ← recv_bulk_len stream '*'
  if length = -1 then
    throw (.key_error (bs "no such key"))
  else
    let (out2, rest2) ← recv_bulks_set length.toNat rest out
    return (out2, length, rest2)

/-- Models `recv_int_reply_`: read a line; an empty line is a protocol
error; a line not starting with `:` is a protocol error; the remainder of
the line goes through `boost::lexical_cast<long>`. -/
def recv_int_reply (stream : Bytes) : Except client_exception (Int × Bytes) := do
  let (line, rest) ← read_line stream 2048
  if line = [] then
    throw (.protocol_error (bs "invalid integer reply; empty"))
  else if line.headD (Char.ofNat 0) ≠ ':' then
    throw (.protocol_error (bs "unexpected prefix for integer reply"))
  else
    match parse_int? (line.drop 1) with
    | some n => return (n, rest)
    | none => throw .bad_lexical_cast

/-- Models `redis::connection_data`: host/port/db-index plus the socket
handle the established connection got. -/
structure connection_data where
  host : Bytes
  port : Nat
  dbindex : Int
  socket : Int
deriving DecidableEq

/-- A placeholder `connection_data` for out-of-range indexing (the C++
indexing `connections_[idx]` is undefined there; no claim exercises it). -/
def dummy_con : connection_data := ⟨[], 0, 0, -1⟩

/-- Models `boost::hash_combine`: `seed ^= h + 0x9e3779b9 + (seed<<6) +
(seed>>2)` on a 64-bit `size_t`. -/
def hash_combine (seed h : Nat) : Nat :=
  (seed ^^^ ((h + 0x9e3779b9 + seed * 64 + seed / 4) % 2 ^ 64)) % 2 ^ 64

/-- Models `boost::hash<std::string>`: `hash_range` over the characters,
i.e. `hash_combine` folded over the byte values from seed 0. -/
def boost_hash_string (s : Bytes) : Nat :=
  s.foldl (fun seed c => hash_combine seed c.toNat) 0

/-- Models `redis::default_hasher::operator()`:
`boost::hash<std::string>()(key) % connections.size()`. -/
def default_hasher (key : Bytes) (connections : List connection_data) : Nat :=
  boost_hash_string key % connections.length

/-- Models `base_client<CONSISTENT_HASHER>`: the fixed ordered connection
sequence plus the injected hash strategy. -/
structure base_client where
  connections : List connection_data
  hasher : Bytes → List connection_data → Nat

/-- Models the single-key `get_socket(key)`: with exactly one connection
return `connections_[0].socket` without consulting the hasher; otherwise
index the connection sequence at `hasher_(key, connections_)`. -/
def get_socket (cl : base_client) (key : Bytes) : Int :=
  if cl.connections.length = 1 then
    (cl.connections.getD 0 dummy_con).socket
  else
    (cl.connections.getD (cl.hasher key cl.connections) dummy_con).socket

/-- The loop of the multi-key `get_socket(keys)` from its second iteration
on: each key's socket must equal the one resolved so far. -/
def get_socket_go (cl : base_client) :
    List Bytes → Int → Except client_exception Int
  | [], socket => .ok socket
  | k :: ks, socket =>
    let cur_socket := get_socket cl k
    if socket ≠ cur_socket then
      .error (.runtime_error (bs "not possible in cluster mode"))
    else
      get_socket_go cl ks cur_socket

/-- Models the multi-key `get_socket(keys)`: resolve every key and throw
`std::runtime_error("not possible in cluster mode")` as soon as one
resolves differently from its predecessors.  An empty key list returns the
initial `socket = -1` (the source only asserts non-emptiness). -/
def get_socket_multi (cl : base_client) (keys : List Bytes) :
    Except client_exception Int :=
  match keys with
  | [] => .ok (-1)
  | k :: ks => get_socket_go cl ks (get_socket cl k)

/-- A send action: the socket written to and the bytes written. -/
abbrev Send := Int × Bytes

/-- Models `base_client::auth`: refuse in cluster mode, else send `AUTH`
on the only connection and expect an `OK` status from its reply stream. -/
def auth (cl : base_client) (pass : Bytes) (reply : Bytes) :
    List Send × Except client_exception Unit :=
  if 1 < cl.connections.length then
    ([], .error (.runtime_error (bs "feature is not available in cluster mode")))
  else
    let socket := (cl.connections.getD 0 dummy_con).socket
    ([(socket, makecmd [bs "AUTH", pass])], (recv_ok_reply reply).map fun _ => ())

/-- Models `base_client::select(dbindex)`: refuse in cluster mode, else
send `SELECT <dbindex>` on the only connection and expect `OK`. -/
def select_db (cl : base_client) (dbindex : Int) (reply : Bytes) :
    List Send × Except client_exception Unit :=
  if 1 < cl.connections.length then
    ([], .error (.runtime_error (bs "feature is not available in cluster mode")))
  else
    let socket := (cl.connections.getD 0 dummy_con).socket
    ([(socket, makecmd [bs "SELECT", intRepr dbindex])],
     (recv_ok_reply reply).map fun _ => ())

/-- Models `base_client::flushall()`: refuse in cluster mode, else send
`FLUSHALL` on the only connection and expect `OK`. -/
def flushall (cl : base_client) (reply : Bytes) :
    List Send × Except client_exception Unit :=
  if 1 < cl.connections.length then
    ([], .error (.runtime_error (bs "feature is not available in cluster mode")))
  else
    let socket := (cl.connections.getD 0 dummy_con).socket
    ([(socket, makecmd [bs "FLUSHALL"])], (recv_ok_reply reply).map fun _ => ())

/-- Models `base_client::rename`: resolve both keys; if they resolve to
different sockets throw before sending anything, else send `RENAME` on the
shared socket and expect `OK` from its reply stream. -/
def rename (cl : base_client) (old_name new_name : Bytes) (reply : Bytes) :
    List Send × Except client_exception Unit :=
  let source_socket := get_socket cl old_name
  let destin_socket := get_socket cl new_name
  if source_socket ≠ destin_socket then
    ([], .error (.runtime_error (bs "feature is not available in cluster mode")))
  else
    ([(source_socket, makecmd [bs "RENAME", old_name, new_name])],
     (recv_ok_reply reply).map fun _ => ())

/-- Models `base_client::sinterstore`: resolve the destination key and the
source keys; on any disagreement throw before sending, else send
`SINTERSTORE` and read an integer reply. -/
def sinterstore (cl : base_client) (dstkey : Bytes) (keys : List Bytes)
    (reply : Bytes) : List Send × Except client_exception Int :=
  let socket := get_socket cl dstkey
  match get_socket_multi cl keys with
  | .error e => ([], .error e)
  | .ok source_sockets =>
    if socket ≠ source_sockets then
      ([], .error (.runtime_error (bs "not available in cluster mode")))
    else
      ([(socket, makecmd (bs "SINTERSTORE" :: dstkey :: keys))],
       (recv_int_reply reply).map Prod.fst)

/-- Models the multi-key `base_client::blpop(keys, timeout)`: route all
keys to one socket (throwing before sending otherwise), send
`BLPOP <keys...> <timeout>`, decode a multi-bulk reply, and return the
(key, value) pair, or `("", missing_value)` when the reply does not have
exactly two elements. -/
def blpop (cl : base_client) (keys : List Bytes) (timeout : Int)
    (reply : Bytes) : List Send × Except client_exception (Bytes × Bytes) :=
  match get_socket_multi cl keys with
  | .error e => ([], .error e)
  | .ok socket =>
    ([(socket, makecmd (bs "BLPOP" :: keys ++ [intRepr timeout]))],
     do
       let (sv, _, _) ← recv_multi_bulk_reply reply
       if sv.length = 2 then return (sv.getD 0 [], sv.getD 1 [])
       else return ([], missing_value))

/-- Models `boost::uniform_int<> dist(0, connections_.size())` in
`base_client::randomkey`: a `boost::uniform_int` draws uniformly from the
*closed* interval between its two constructor arguments, so the possible
draws are exactly `0 .. num_connections` inclusive. -/
def randomkey_possible_draw (num_connections k : Nat) : Bool :=
  k ≤ num_connections

/-- The `std::map<int, boost::optional<makecmd>>` used by `mset`: an
association list sorted by ascending socket (the map's iteration order);
each value is the argument list accumulated in that socket's `makecmd`. -/
abbrev CmdMap := List (Int × List Bytes)

/-- One `socket_commands[socket]` access followed by
`if (!cmd) cmd = makecmd("MSET"); *cmd << key << value;` — on a fresh
entry the command starts as `["MSET"]`, then the key and value are
appended. -/
def cmd_map_add (m : CmdMap) (socket : Int) (kv : List Bytes) : CmdMap :=
  match m with
  | [] => [(socket, bs "MSET" :: kv)]
  | (s, lines) :: rest =>
    if socket = s then (s, lines ++ kv) :: rest
    else if socket < s then (socket, bs "MSET" :: kv) :: (s, lines) :: rest
    else (s, lines) :: cmd_map_add rest socket kv

/-- The `mset(keys, values)` loop as written: the routing call is
`get_socket(keys)` — the *whole key list* — on every iteration. -/
def mset_written_go (cl : base_client) (keys : List Bytes) :
    List (Bytes × Bytes) → CmdMap → Except client_exception CmdMap
  | [], m => .ok m
  | (k, v) :: rest, m =>
    match get_socket_multi cl keys with
    | .error e => .error e
    | .ok socket => mset_written_go cl keys rest (cmd_map_add m socket [k, v])

/-- The corrected `mset` loop: the routing call hashes `keys[i]` alone. -/
def mset_corrected_go (cl : base_client) :
    List (Bytes × Bytes) → CmdMap → CmdMap
  | [], m => m
  | (k, v) :: rest, m =>
    mset_corrected_go cl rest (cmd_map_add m (get_socket cl k) [k, v])

/-- The receive phase shared by both variants: one `recv_ok_reply_` per
map entry, in map order, reading from that socket's reply stream. -/
def recv_ok_all (replies : Int → Bytes) : CmdMap → Except client_exception Unit
  | [] => .ok ()
  | (s, _) :: rest => do
    let _ ← recv_ok_reply (replies s)
    recv_ok_all replies rest

/-- Models `base_client::mset(keys, values)` as written: build the
socket → command map (routing each pair by `get_socket(keys)`), then send
each accumulated `MSET` and finally expect one `OK` per map entry.
`replies` gives each socket's reply stream.  The observable behaviour is
the ordered list of sends plus the outcome. -/
def mset_written (cl : base_client) (keys values : List Bytes)
    (replies : Int → Bytes) : List Send × Except client_exception Unit :=
  match mset_written_go cl keys (keys.zip values) [] with
  | .error e => ([], .error e)
  | .ok m => (m.map (fun p => (p.1, makecmd p.2)), recv_ok_all replies m)

/-- The corrected variant of `mset`: identical except that the `i`-th pair
is routed by hashing `keys[i]` alone. -/
def mset_corrected (cl : base_client) (keys values : List Bytes)
    (replies : Int → Bytes) : List Send × Except client_exception Unit :=
  let m := mset_corrected_go cl (keys.zip values) []
  (m.map (fun p => (p.1, makecmd p.2)), recv_ok_all replies m)

/-! ### Helper lemmas: folds, trimming, line reading -/

theorem foldl_append_eq_flatten {α : Type} (f : α → Bytes) (l : List α) :
    ∀ init : Bytes, l.foldl (fun acc p => acc ++ f p) init = init ++ (l.map f).flatten := by
  induction l with
  | nil => intro init; simp
  | cons a l ih => intro init; simp [ih, List.append_assoc]

theorem rtrim_lbr_append_cr (l : Bytes) : rtrim_lbr (l ++ ['\r']) = rtrim_lbr l := by
  simp [rtrim_lbr, List.dropWhile]

theorem rtrim_lbr_append_lf (l : Bytes) : rtrim_lbr (l ++ ['\n']) = rtrim_lbr l := by
  simp [rtrim_lbr, List.dropWhile]

theorem rtrim_lbr_no_lbr (l : Bytes) (h : ∀ c ∈ l, c ≠ '\r' ∧ c ≠ '\n') :
    rtrim_lbr l = l := by
  induction l using List.reverseRecOn with
  | nil => rfl
  | append_singleton l a ih =>
    have ha := h a (by simp)
    simp [rtrim_lbr, List.dropWhile, ha.1, ha.2]

theorem read_line_go_find (max_size : Nat) (hmax : 0 < max_size) :
    ∀ (l oss rest : Bytes), (∀ c ∈ l, c ≠ '\n') →
      read_line_go oss 0 max_size (l ++ '\n' :: rest) =
        .ok (rtrim_lbr ((oss ++ l) ++ ['\n']), rest) := by
  intro l
  induction l with
  | nil => intro oss rest _; simp [read_line_go, hmax]
  | cons a l ih =>
    intro oss rest h
    have ha : a ≠ '\n' := (h a (by simp))
    simp only [List.cons_append, read_line_go, if_pos hmax, if_neg ha, List.append_eq]
    rw [ih (oss ++ [a]) rest (fun c hc => h c (by simp [hc]))]
    simp

theorem read_line_find (l rest : Bytes) (max_size : Nat) (hmax : 0 < max_size)
    (h : ∀ c ∈ l, c ≠ '\n') :
    read_line (l ++ '\n' :: rest) max_size = .ok (rtrim_lbr (l ++ ['\n']), rest) := by
  simpa using read_line_go_find max_size hmax l [] rest h

/-! ### Helper lemmas: decimal digits round-trip -/

theorem toDigitChar_spec (d : Nat) (h : d < 10) :
    digitVal? (toDigitChar d) = some d ∧ toDigitChar d ≠ '\n' ∧ toDigitChar d ≠ '\r'
      ∧ toDigitChar d ≠ '-' ∧ toDigitChar d ≠ '+' := by
  interval_cases d <;> exact ⟨by decide, by decide, by decide, by decide, by decide⟩

theorem natDigitsAux_mem :
    ∀ (fuel n : Nat) (c : Char), c ∈ natDigitsAux fuel n →
      ∃ d, d < 10 ∧ c = toDigitChar d := by
  intro fuel
  induction fuel with
  | zero => intro n c hc; cases n <;> simp [natDigitsAux] at hc
  | succ fuel ih =>
    intro n c hc
    cases n with
    | zero => simp [natDigitsAux] at hc
    | succ m =>
      simp only [natDigitsAux, List.mem_append, List.mem_singleton] at hc
      rcases hc with hc | hc
      · exact ih _ c hc
      · exact ⟨(m + 1) % 10, Nat.mod_lt _ (by decide), hc⟩

theorem parseDigits_append (xs : List Char) :
    ∀ (ys : List Char) (acc : Nat),
      parseDigits (xs ++ ys) acc = (parseDigits xs acc).bind (parseDigits ys) := by
  induction xs with
  | nil => intro ys acc; simp [parseDigits]
  | cons c cs ih =>
    intro ys acc
    simp only [List.cons_append, parseDigits]
    cases digitVal? c with
    | none => simp
    | some d => simp [ih]

theorem parseDigits_natDigitsAux :
    ∀ (fuel n : Nat), n ≤ fuel → parseDigits (natDigitsAux fuel n) 0 = some n := by
  intro fuel
  induction fuel with
  | zero =>
    intro n hn
    interval_cases n
    simp [natDigitsAux, parseDigits]
  | succ fuel ih =>
    intro n hn
    cases n with
    | zero => simp [natDigitsAux, parseDigits]
    | succ m =>
      have hdiv : (m + 1) / 10 ≤ fuel := by
        have h1 : (m + 1) / 10 < m + 1 := Nat.div_lt_self (Nat.succ_pos m) (by decide)
        have h2 : m + 1 ≤ fuel + 1 := hn
        exact Nat.le_of_lt_succ (Nat.lt_of_lt_of_le h1 h2)
      rw [natDigitsAux, parseDigits_append, ih _ hdiv]
      have hmod := (toDigitChar_spec ((m + 1) % 10) (Nat.mod_lt _ (by decide))).1
      simp only [Option.some_bind, parseDigits, hmod]
      congr 1
      rw [Nat.mul_comm]
      exact Nat.div_add_mod (m + 1) 10

theorem natDigitsAux_ne_nil (fuel m : Nat) : natDigitsAux (fuel + 1) (m + 1) ≠ [] := by
  simp [natDigitsAux]

theorem parseDigits1_natRepr (n : Nat) : parseDigits1 (natRepr n) = some n := by
  by_cases h0 : n = 0
  · subst h0; decide
  · obtain ⟨m, rfl⟩ := Nat.exists_eq_succ_of_ne_zero h0
    have hne : natDigitsAux (m + 1) (m + 1) ≠ [] := natDigitsAux_ne_nil m m
    have hr : natRepr (m + 1) = natDigitsAux (m + 1) (m + 1) := by simp [natRepr]
    rw [hr]
    unfold parseDigits1
    rw [if_neg hne]
    exact parseDigits_natDigitsAux (m + 1) (m + 1) le_rfl

theorem natRepr_head_digit (n : Nat) :
    ∃ c cs, natRepr n = c :: cs ∧ ∃ d, d < 10 ∧ c = toDigitChar d := by
  by_cases h0 : n = 0
  · subst h0
    exact ⟨'0', [], rfl, 0, by decide, by decide⟩
  · obtain ⟨m, rfl⟩ := Nat.exists_eq_succ_of_ne_zero h0
    unfold natRepr
    simp only [Nat.succ_ne_zero, if_false]
    cases hn : natDigitsAux (m + 1) (m + 1) with
    | nil => exact absurd hn (natDigitsAux_ne_nil m m)
    | cons c cs =>
      refine ⟨c, cs, rfl, ?_⟩
      exact natDigitsAux_mem (m + 1) (m + 1) c (by rw [hn]; simp)

theorem parse_int?_natRepr (n : Nat) : parse_int? (natRepr n) = some (n : Int) := by
  obtain ⟨c, cs, hcc, d, hd, rfl⟩ := natRepr_head_digit n
  have spec := toDigitChar_spec d hd
  have hp : parseDigits1 (toDigitChar d :: cs) = some n := by
    rw [← hcc]; exact parseDigits1_natRepr n
  rw [hcc]
  simp [parse_int?, spec.2.2.2.1, spec.2.2.2.2, hp]

theorem natRepr_eq_intRepr (n : Nat) : intRepr (n : Int) = natRepr n := by
  simp [intRepr]

theorem parse_int?_intRepr (i : Int) : parse_int? (intRepr i) = some i := by
  by_cases h : i < 0
  · unfold intRepr
    rw [if_pos h]
    have hp : parseDigits1 (natRepr i.natAbs) = some i.natAbs := parseDigits1_natRepr _
    have hna : ((i.natAbs : Int)) = -i := by
      rcases Int.natAbs_eq i with he | he
      · have h0 : (0 : Int) ≤ i := by rw [he]; exact Int.natCast_nonneg _
        exact absurd h0 (not_le.mpr h)
      · conv_rhs => rw [he]
        rw [neg_neg]
    simp [parse_int?, hp, hna]
  · have h0 : (0 : Int) ≤ i := by omega
    unfold intRepr
    rw [if_neg h, parse_int?_natRepr]
    congr 1
    exact Int.toNat_of_nonneg h0

theorem natRepr_chars (n : Nat) : ∀ c ∈ natRepr n, c ≠ '\n' ∧ c ≠ '\r' := by
  intro c hc
  by_cases h0 : n = 0
  · subst h0; simp [natRepr] at hc; subst hc; exact ⟨by decide, by decide⟩
  · unfold natRepr at hc
    rw [if_neg h0] at hc
    obtain ⟨d, hd, rfl⟩ := natDigitsAux_mem n n c hc
    exact ⟨(toDigitChar_spec d hd).2.1, (toDigitChar_spec d hd).2.2.1⟩

theorem intRepr_chars (i : Int) : ∀ c ∈ intRepr i, c ≠ '\n' ∧ c ≠ '\r' := by
  intro c hc
  unfold intRepr at hc
  by_cases h : i < 0
  · rw [if_pos h] at hc
    rcases List.mem_cons.mp hc with rfl | hc
    · exact ⟨by decide, by decide⟩
    · exact natRepr_chars _ c hc
  · rw [if_neg h] at hc
    exact natRepr_chars _ c hc

/-! ### Helper lemmas: decoding well-formed wire replies -/

theorem except_bind_ok {ε α β : Type} (a : α) (f : α → Except ε β) :
    (Except.ok a : Except ε α) >>= f = f a := rfl

theorem except_bind_error {ε α β : Type} (e : ε) (f : α → Except ε β) :
    (Except.error e : Except ε α) >>= f = .error e := rfl

theorem except_pure {ε α : Type} (a : α) : (pure a : Except ε α) = .ok a := rfl

theorem except_throw {ε α : Type} (e : ε) : (throw e : Except ε α) = .error e := rfl

theorem recv_bulk_len_wire (mk : Char) (hr : mk ≠ '\r') (hn : mk ≠ '\n')
    (i : Int) (rest : Bytes) :
    recv_bulk_len (mk :: intRepr i ++ bs "\r\n" ++ rest) mk = .ok (i, rest) := by
  have hline : ∀ c ∈ (mk :: intRepr i) ++ ['\r'], c ≠ '\n' := by
    intro c hc
    rcases List.mem_append.mp hc with hc | hc
    · rcases List.mem_cons.mp hc with rfl | hc
      · exact hn
      · exact (intRepr_chars i c hc).1
    · simp at hc; subst hc; decide
  have hshape : mk :: intRepr i ++ bs "\r\n" ++ rest
      = ((mk :: intRepr i) ++ ['\r']) ++ '\n' :: rest := by
    simp [bs]
  have hrt : rtrim_lbr (((mk :: intRepr i) ++ ['\r']) ++ ['\n']) = mk :: intRepr i := by
    rw [rtrim_lbr_append_lf, rtrim_lbr_append_cr]
    refine rtrim_lbr_no_lbr _ ?_
    intro c hc
    rcases List.mem_cons.mp hc with rfl | hc
    · exact ⟨hr, hn⟩
    · exact ⟨(intRepr_chars i c hc).2, (intRepr_chars i c hc).1⟩
  have hread := read_line_find ((mk :: intRepr i) ++ ['\r']) rest 2048 (by decide) hline
  rw [hrt] at hread
  unfold recv_bulk_len
  rw [hshape, hread]
  simp [except_bind_ok, except_pure, parse_int?_intRepr i]

theorem recv_bulk_reply_wire (n : Nat) (body rest : Bytes) (hlen : body.length = n + 2) :
    recv_bulk_reply ('$' :: natRepr n ++ bs "\r\n" ++ (body ++ rest))
      = .ok (body.take n, rest) := by
  have hh := recv_bulk_len_wire '$' (by decide) (by decide) (n : Int) (body ++ rest)
  rw [natRepr_eq_intRepr] at hh
  have hne : ((n : Int)) ≠ -1 := by omega
  have htn : ((n : Int) + 2).toNat = n + 2 := by omega
  have hnlt : ¬ (body ++ rest).length < n + 2 := by
    rw [List.length_append, hlen]; omega
  have htake : (body ++ rest).take (n + 2) = body := by
    rw [← hlen]; exact List.take_left body rest
  have hdrop : (body ++ rest).drop (n + 2) = rest := by
    rw [← hlen]; exact List.drop_left body rest
  have hbody : body ≠ [] := by
    intro h; rw [h] at hlen; simp at hlen
  have hr0 : ¬ ((rest.length : Int) < 0) := by omega
  unfold recv_bulk_reply
  rw [hh]
  simp [except_bind_ok, except_pure, hne, htn, read_n, hnlt, htake, hdrop, hbody, hlen, hr0]

/-- The wire form of one non-nil bulk reply carrying `b`. -/
def bulk_wire (b : Bytes) : Bytes := '$' :: natRepr b.length ++ bs "\r\n" ++ b ++ bs "\r\n"

theorem recv_bulk_reply_item (b rest : Bytes) :
    recv_bulk_reply (bulk_wire b ++ rest) = .ok (b, rest) := by
  have h := recv_bulk_reply_wire b.length (b ++ bs "\r\n") rest (by simp [bs])
  have hshape : bulk_wire b ++ rest
      = '$' :: natRepr b.length ++ bs "\r\n" ++ ((b ++ bs "\r\n") ++ rest) := by
    simp [bulk_wire]
  have htake : (b ++ bs "\r\n").take b.length = b := List.take_left b (bs "\r\n")
  rw [hshape, h, htake]

/-- The wire form of a multi-bulk reply carrying `items`. -/
def multi_bulk_wire (items : List Bytes) : Bytes :=
  '*' :: natRepr items.length ++ bs "\r\n" ++ (items.map bulk_wire).flatten

theorem recv_bulks_wire (items : List Bytes) :
    ∀ rest, recv_bulks items.length ((items.map bulk_wire).flatten ++ rest)
      = .ok (items, rest) := by
  induction items with
  | nil => intro rest; simp [recv_bulks]
  | cons a items ih =>
    intro rest
    have hshape : (((a :: items).map bulk_wire).flatten : Bytes) ++ rest
        = bulk_wire a ++ ((items.map bulk_wire).flatten ++ rest) := by simp
    simp only [List.length_cons]
    rw [hshape]
    unfold recv_bulks
    rw [recv_bulk_reply_item]
    simp [except_bind_ok, except_pure, ih]

theorem recv_multi_bulk_reply_wire (items : List Bytes) (rest : Bytes) :
    recv_multi_bulk_reply (multi_bulk_wire items ++ rest)
      = .ok (items, (items.length : Int), rest) := by
  have hh := recv_bulk_len_wire '*' (by decide) (by decide) (items.length : Int)
    ((items.map bulk_wire).flatten ++ rest)
  rw [natRepr_eq_intRepr] at hh
  have hshape : multi_bulk_wire items ++ rest
      = '*' :: natRepr items.length ++ bs "\r\n" ++ ((items.map bulk_wire).flatten ++ rest) := by
    simp [multi_bulk_wire]
  have hne : ((items.length : Int)) ≠ -1 := by omega
  have htn : ((items.length : Int)).toNat = items.length := by omega
  unfold recv_multi_bulk_reply
  rw [hshape, hh]
  simp [except_bind_ok, except_pure, hne, htn, recv_bulks_wire items rest]

theorem recv_bulks_set_wire (items : List Bytes) :
    ∀ (rest : Bytes) (out : Finset Bytes),
      recv_bulks_set items.length ((items.map bulk_wire).flatten ++ rest) out
        = .ok (items.foldl (fun s b => insert b s) out, rest) := by
  induction items with
  | nil => intro rest out; simp [recv_bulks_set]
  | cons a items ih =>
    intro rest out
    have hshape : (((a :: items).map bulk_wire).flatten : Bytes) ++ rest
        = bulk_wire a ++ ((items.map bulk_wire).flatten ++ rest) := by simp
    simp only [List.length_cons]
    rw [hshape]
    unfold recv_bulks_set
    rw [recv_bulk_reply_item]
    simp only [except_bind_ok, List.foldl_cons]
    exact ih rest (insert a out)

theorem recv_multi_bulk_reply_set_wire (items : List Bytes) (rest : Bytes)
    (out : Finset Bytes) :
    recv_multi_bulk_reply_set (multi_bulk_wire items ++ rest) out
      = .ok (items.foldl (fun s b => insert b s) out, (items.length : Int), rest) := by
  have hh := recv_bulk_len_wire '*' (by decide) (by decide) (items.length : Int)
    ((items.map bulk_wire).flatten ++ rest)
  rw [natRepr_eq_intRepr] at hh
  have hshape : multi_bulk_wire items ++ rest
      = '*' :: natRepr items.length ++ bs "\r\n" ++ ((items.map bulk_wire).flatten ++ rest) := by
    simp [multi_bulk_wire]
  have hne : ((items.length : Int)) ≠ -1 := by omega
  have htn : ((items.length : Int)).toNat = items.length := by omega
  unfold recv_multi_bulk_reply_set
  rw [hshape, hh]
  simp [except_bind_ok, except_pure, hne, htn, recv_bulks_set_wire items rest out]

/-! ### Claims C1 – C5: the protocol codec -/

/-- Claim C1: for every command name and ordered argument list, `makecmd`
serializes to `*<argc>\r\n` followed by, for each argument in order,
`$<len>\r\n<bytes>\r\n` where `len` is the exact byte length of that
argument; encoding `SET foo bar` yields exactly
`*3\r\n$3\r\nSET\r\n$3\r\nfoo\r\n$3\r\nbar\r\n`; and arguments are opaque
byte strings — an argument with embedded `\r\n` is emitted verbatim under
its exact length. -/
theorem C1_command_serialization :
    (∀ (cmd : Bytes) (args : List Bytes),
        makecmd (cmd :: args) = makecmd_wire_spec (cmd :: args))
    ∧ makecmd [bs "SET", bs "foo", bs "bar"]
        = bs "*3\r\n$3\r\nSET\r\n$3\r\nfoo\r\n$3\r\nbar\r\n"
    ∧ makecmd [bs "SET", bs "k", bs "a\r\nb"]
        = bs "*3\r\n$3\r\nSET\r\n$1\r\nk\r\n$4\r\na\r\nb\r\n" := by
  refine ⟨fun cmd args => ?_, by decide, by decide⟩
  unfold makecmd makecmd_wire_spec
  rw [foldl_append_eq_flatten]

/-- Claim C2: decoding a bulk reply with declared length −1 yields the
missing-value sentinel (not an error); a declared length `N ≥ 0` reads
exactly `N + 2` further bytes, strips the trailing two, and returns the
`N` payload bytes (`read_n` itself can never deliver a length different
from the one requested — it either returns exactly `n` bytes or throws). -/
theorem C2_bulk_reply_decoding :
    (∀ rest : Bytes, recv_bulk_reply (bs "$-1\r\n" ++ rest) = .ok (missing_value, rest))
    ∧ (∀ (n : Nat) (body rest : Bytes), body.length = n + 2 →
        recv_bulk_reply ('$' :: natRepr n ++ bs "\r\n" ++ (body ++ rest))
          = .ok (body.take n, rest))
    ∧ (∀ (stream data rest : Bytes) (n : Nat),
        read_n stream n = .ok (data, rest) → data.length = n) := by
  refine ⟨fun rest => ?_, recv_bulk_reply_wire, fun stream data rest n h => ?_⟩
  · have hshape : bs "$-1\r\n" ++ rest = '$' :: intRepr (-1) ++ bs "\r\n" ++ rest := by
      have : bs "$-1\r\n" = '$' :: intRepr (-1) ++ bs "\r\n" := by decide
      rw [this]
    have hh := recv_bulk_len_wire '$' (by decide) (by decide) (-1) rest
    unfold recv_bulk_reply
    rw [hshape, hh]
    simp [except_bind_ok, except_pure]
  · unfold read_n at h
    by_cases hc : stream.length < n
    · rw [if_pos hc] at h; cases h
    · rw [if_neg hc] at h
      cases h
      rw [List.length_take]
      omega

/-- Witness for C2: concrete instances of the hypothesized parts. -/
theorem C2_bulk_reply_decoding_witness :
    recv_bulk_reply ('$' :: natRepr 3 ++ bs "\r\n" ++ (bs "foo\r\n" ++ bs "X"))
      = .ok ((bs "foo\r\n").take 3, bs "X")
    ∧ (bs "ab").length = 2 :=
  ⟨C2_bulk_reply_decoding.2.1 3 (bs "foo\r\n") (bs "X") (by decide),
   C2_bulk_reply_decoding.2.2 (bs "abcd") (bs "ab") (bs "cd") 2 (by decide)⟩

/-- Claim C3: decoding a multi-bulk reply with declared count −1 raises
`key_error` (not a generic protocol error); count 0 yields the empty
sequence; a declared count `M ≥ 0` performs exactly `M` bulk decodes
accumulated in order into the output sequence — or inserted into the
unordered-set output for the set overload — and returns `M`. -/
theorem C3_multi_bulk_decoding :
    (∀ rest : Bytes, recv_multi_bulk_reply (bs "*-1\r\n" ++ rest)
        = .error (.key_error (bs "no such key")))
    ∧ (∀ rest : Bytes, recv_multi_bulk_reply (bs "*0\r\n" ++ rest) = .ok ([], 0, rest))
    ∧ (∀ (items : List Bytes) (rest : Bytes),
        recv_multi_bulk_reply (multi_bulk_wire items ++ rest)
          = .ok (items, (items.length : Int), rest))
    ∧ (∀ (items : List Bytes) (rest : Bytes) (out : Finset Bytes),
        recv_multi_bulk_reply_set (multi_bulk_wire items ++ rest) out
          = .ok (items.foldl (fun s b => insert b s) out, (items.length : Int), rest)) := by
  refine ⟨fun rest => ?_, fun rest => ?_, recv_multi_bulk_reply_wire,
    recv_multi_bulk_reply_set_wire⟩
  · have hshape : bs "*-1\r\n" ++ rest = '*' :: intRepr (-1) ++ bs "\r\n" ++ rest := by
      have : bs "*-1\r\n" = '*' :: intRepr (-1) ++ bs "\r\n" := by decide
      rw [this]
    have hh := recv_bulk_len_wire '*' (by decide) (by decide) (-1) rest
    unfold recv_multi_bulk_reply
    rw [hshape, hh]
    simp [except_bind_ok, except_throw]
  · have hshape : bs "*0\r\n" ++ rest = multi_bulk_wire [] ++ rest := by
      have : bs "*0\r\n" = multi_bulk_wire [] := by decide
      rw [this]
    rw [hshape]
    simpa using recv_multi_bulk_reply_wire [] rest

/-- Claim C4 counterexample: feeding `:abc\r\n` to the integer decoder
does not raise one of the client's protocol errors — `lexical_cast` throws
`boost::bad_lexical_cast`, which is outside the `redis_error` taxonomy. -/
theorem C4_counterexample :
    recv_int_reply (bs ":abc\r\n") = .error .bad_lexical_cast
    ∧ client_exception.bad_lexical_cast.isProtocol = false :=
  ⟨by decide, by decide⟩

/-- Claim C4 as amended: feeding `:42\r\n` to the integer reply decoder
yields 42; an empty line where an integer reply was expected raises a
protocol error; feeding `:abc\r\n` raises `boost::bad_lexical_cast`
(an exception outside the client's error taxonomy), not a protocol
error. -/
theorem C4_int_reply_decoding :
    recv_int_reply (bs ":42\r\n") = .ok (42, [])
    ∧ recv_int_reply (bs "\r\n")
        = .error (.protocol_error (bs "invalid integer reply; empty"))
    ∧ recv_int_reply (bs ":abc\r\n") = .error .bad_lexical_cast :=
  ⟨by decide, by decide, by decide⟩

/-- Claim C5, evaluated at the failing input: with a byte budget of 4,
reading a 70-byte line consumes 72 bytes — far beyond the budget — yet
the full (non-blank) line is returned, because `total_bytes_read` is never
updated in the source loop and the budget check never fires.  The other
clauses hold: a peer close before any terminator raises a connection
error, and trailing CR/LF is stripped without consuming past the
terminator. -/
theorem C5_read_line_budget_dead :
    read_line (List.replicate 70 'a' ++ bs "\r\n") 4
      = .ok (List.replicate 70 'a', [])
    ∧ List.replicate 70 'a' ≠ ([] : Bytes)
    ∧ read_line (List.replicate 70 'a') 2048
        = .error (.connection_error (bs "connection was closed"))
    ∧ read_line (bs "ab\r\nXY") 2048 = .ok (bs "ab", bs "XY") :=
  ⟨by decide, by decide, by decide, by decide⟩

/-! ### Helper lemmas: routing -/

theorem get_socket_go_all_eq (cl : base_client) :
    ∀ (ks : List Bytes) (s : Int), (∀ k ∈ ks, get_socket cl k = s) →
      get_socket_go cl ks s = .ok s := by
  intro ks
  induction ks with
  | nil => intro s _; rfl
  | cons k ks ih =>
    intro s h
    have hk : get_socket cl k = s := h k (by simp)
    unfold get_socket_go
    simp only [hk, ne_eq, not_true_eq_false, if_false, ite_self]
    simpa [hk] using ih s (fun q hq => h q (by simp [hq]))

theorem get_socket_multi_all_eq (cl : base_client) (k : Bytes) (ks : List Bytes)
    (h : ∀ q ∈ k :: ks, get_socket cl q = get_socket cl k) :
    get_socket_multi cl (k :: ks) = .ok (get_socket cl k) := by
  unfold get_socket_multi
  exact get_socket_go_all_eq cl ks _ (fun q hq => h q (by simp [hq]))

theorem get_socket_go_ok (cl : base_client) :
    ∀ (ks : List Bytes) (s t : Int), get_socket_go cl ks s = .ok t →
      t = s ∧ ∀ k ∈ ks, get_socket cl k = s := by
  intro ks
  induction ks with
  | nil =>
    intro s t h
    cases h
    exact ⟨rfl, by simp⟩
  | cons k ks ih =>
    intro s t h
    unfold get_socket_go at h
    by_cases hc : s = get_socket cl k
    · rw [← hc] at h
      simp only [ne_eq, not_true_eq_false, if_false, ite_self] at h
      obtain ⟨rfl, hall⟩ := ih s t h
      exact ⟨rfl, by
        intro q hq
        rcases List.mem_cons.mp hq with rfl | hq
        · exact hc.symm
        · exact hall q hq⟩
    · rw [if_pos hc] at h
      cases h

theorem get_socket_go_error_shape (cl : base_client) :
    ∀ (ks : List Bytes) (s : Int),
      (∃ t, get_socket_go cl ks s = .ok t)
      ∨ get_socket_go cl ks s
          = .error (.runtime_error (bs "not possible in cluster mode")) := by
  intro ks
  induction ks with
  | nil => intro s; exact Or.inl ⟨s, rfl⟩
  | cons k ks ih =>
    intro s
    unfold get_socket_go
    by_cases hc : s = get_socket cl k
    · rw [← hc]
      simpa using ih s
    · rw [if_pos hc]
      exact Or.inr rfl

theorem get_socket_multi_cross (cl : base_client) (keys : List Bytes)
    (k1 k2 : Bytes) (h1 : k1 ∈ keys) (h2 : k2 ∈ keys)
    (hne : get_socket cl k1 ≠ get_socket cl k2) :
    get_socket_multi cl keys
      = .error (.runtime_error (bs "not possible in cluster mode")) := by
  cases keys with
  | nil => cases h1
  | cons k ks =>
    unfold get_socket_multi
    rcases get_socket_go_error_shape cl ks (get_socket cl k) with ⟨t, ht⟩ | he
    · exfalso
      obtain ⟨-, hall⟩ := get_socket_go_ok cl ks (get_socket cl k) t ht
      have e1 : get_socket cl k1 = get_socket cl k := by
        rcases List.mem_cons.mp h1 with rfl | hm
        · rfl
        · exact hall _ hm
      have e2 : get_socket cl k2 = get_socket cl k := by
        rcases List.mem_cons.mp h2 with rfl | hm
        · rfl
        · exact hall _ hm
      exact hne (e1.trans e2.symm)
    · exact he

/-! ### Claims C6 – C10: routing, guards, randomkey -/

/-- Claim C6: with exactly one connection every key routes to it
unconditionally and the hash strategy is not consulted (any two strategies
give the same result); with more than one connection the client with the
default strategy selects index `hash(key) mod connection_count`, a pure
function of the key and the connection sequence (determinism). -/
theorem C6_single_key_routing :
    (∀ (cs : List connection_data) (h1 h2 : Bytes → List connection_data → Nat)
        (key : Bytes), cs.length = 1 →
        get_socket ⟨cs, h1⟩ key = (cs.getD 0 dummy_con).socket
          ∧ get_socket ⟨cs, h1⟩ key = get_socket ⟨cs, h2⟩ key)
    ∧ (∀ (cs : List connection_data) (key : Bytes), 1 < cs.length →
        get_socket ⟨cs, default_hasher⟩ key
          = (cs.getD (boost_hash_string key % cs.length) dummy_con).socket) := by
  constructor
  · intro cs h1 h2 key hc
    unfold get_socket
    simp [hc]
  · intro cs key hc
    have hne : cs.length ≠ 1 := by omega
    unfold get_socket default_hasher
    simp [hne]

/-- Concrete connections and clients used by the witnesses. -/
def con_a : connection_data := ⟨bs "localhost", 6379, 0, 100⟩

def con_b : connection_data := ⟨bs "localhost", 6380, 0, 200⟩

def cl_one : base_client := ⟨[con_a], default_hasher⟩

def cl_two : base_client := ⟨[con_a, con_b], default_hasher⟩

/-- Witness for C6 at a one- and a two-connection client. -/
theorem C6_single_key_routing_witness :
    (get_socket ⟨[con_a], default_hasher⟩ (bs "k") = ([con_a].getD 0 dummy_con).socket
      ∧ get_socket ⟨[con_a], default_hasher⟩ (bs "k")
          = get_socket ⟨[con_a], fun _ _ => 99⟩ (bs "k"))
    ∧ get_socket ⟨[con_a, con_b], default_hasher⟩ (bs "k")
        = ([con_a, con_b].getD
            (boost_hash_string (bs "k") % [con_a, con_b].length) dummy_con).socket :=
  ⟨C6_single_key_routing.1 [con_a] default_hasher (fun _ _ => 99) (bs "k") (by decide),
   C6_single_key_routing.2 [con_a, con_b] (bs "k") (by decide)⟩

/-- Claim C7: a multi-key operation whose keys resolve to different
connections is rejected with the cluster-mode `runtime_error` and produces
no sends at all (no network side effects); when all keys resolve to the
same connection, the command is sent on that connection.  Shown for the
shared multi-key router, for `blpop` and `sinterstore` (rejection with no
sends), and for `rename` (both directions). -/
theorem C7_cross_shard_rejection :
    (∀ (cl : base_client) (keys : List Bytes) (k1 k2 : Bytes),
        k1 ∈ keys → k2 ∈ keys → get_socket cl k1 ≠ get_socket cl k2 →
        get_socket_multi cl keys
            = .error (.runtime_error (bs "not possible in cluster mode"))
          ∧ (∀ (timeout : Int) (reply : Bytes),
              blpop cl keys timeout reply
                = ([], .error (.runtime_error (bs "not possible in cluster mode"))))
          ∧ (∀ (dstkey reply : Bytes),
              sinterstore cl dstkey keys reply
                = ([], .error (.runtime_error (bs "not possible in cluster mode")))))
    ∧ (∀ (cl : base_client) (old_name new_name reply : Bytes),
        get_socket cl old_name ≠ get_socket cl new_name →
        rename cl old_name new_name reply
          = ([], .error (.runtime_error (bs "feature is not available in cluster mode"))))
    ∧ (∀ (cl : base_client) (old_name new_name reply : Bytes),
        get_socket cl old_name = get_socket cl new_name →
        (rename cl old_name new_name reply).1
          = [(get_socket cl old_name, makecmd [bs "RENAME", old_name, new_name])])
    ∧ (∀ (cl : base_client) (k : Bytes) (ks : List Bytes) (timeout : Int)
        (reply : Bytes),
        (∀ q ∈ k :: ks, get_socket cl q = get_socket cl k) →
        (blpop cl (k :: ks) timeout reply).1
          = [(get_socket cl k,
              makecmd (bs "BLPOP" :: ((k :: ks) ++ [intRepr timeout])))]) := by
  refine ⟨fun cl keys k1 k2 h1 h2 hne => ?_, fun cl o n reply hne => ?_,
    fun cl o n reply he => ?_, fun cl k ks timeout reply hall => ?_⟩
  · have hm := get_socket_multi_cross cl keys k1 k2 h1 h2 hne
    refine ⟨hm, fun timeout reply => ?_, fun dstkey reply => ?_⟩
    · unfold blpop
      rw [hm]
    · unfold sinterstore
      rw [hm]
  · unfold rename
    rw [if_pos hne]
  · unfold rename
    rw [if_neg (by simpa using he)]
  · have hm := get_socket_multi_all_eq cl k ks hall
    unfold blpop
    rw [hm]
    rfl

/-- Witness for C7: at the concrete two-connection client, keys `a` and
`b` resolve to different sockets and every guarded conclusion holds; at
the one-connection client `rename` and `blpop` send their command. -/
theorem C7_cross_shard_rejection_witness :
    (get_socket_multi cl_two [bs "a", bs "b"]
        = .error (.runtime_error (bs "not possible in cluster mode"))
      ∧ (∀ (timeout : Int) (reply : Bytes),
          blpop cl_two [bs "a", bs "b"] timeout reply
            = ([], .error (.runtime_error (bs "not possible in cluster mode"))))
      ∧ (∀ (dstkey reply : Bytes),
          sinterstore cl_two dstkey [bs "a", bs "b"] reply
            = ([], .error (.runtime_error (bs "not possible in cluster mode")))))
    ∧ rename cl_two (bs "a") (bs "b") (bs "+OK\r\n")
        = ([], .error (.runtime_error (bs "feature is not available in cluster mode")))
    ∧ (rename cl_one (bs "a") (bs "b") (bs "+OK\r\n")).1
        = [(get_socket cl_one (bs "a"), makecmd [bs "RENAME", bs "a", bs "b"])]
    ∧ (blpop cl_one [bs "a", bs "b"] 5 (bs "*-1\r\n")).1
        = [(get_socket cl_one (bs "a"),
            makecmd (bs "BLPOP" :: ([bs "a", bs "b"] ++ [intRepr 5])))] :=
  ⟨C7_cross_shard_rejection.1 cl_two [bs "a", bs "b"] (bs "a") (bs "b")
      (by simp) (by simp) (by decide),
   C7_cross_shard_rejection.2.1 cl_two (bs "a") (bs "b") (bs "+OK\r\n") (by decide),
   C7_cross_shard_rejection.2.2.1 cl_one (bs "a") (bs "b") (bs "+OK\r\n") (by decide),
   C7_cross_shard_rejection.2.2.2 cl_one (bs "a") [bs "b"] 5 (bs "*-1\r\n")
      (by intro q hq; fin_cases hq <;> decide)⟩

/-- Claim C8: `auth`, `select` and `flushall` throw without sending
anything whenever more than one connection is configured; with exactly one
connection each sends its command on that connection and succeeds exactly
on an `OK` status reply (a non-OK status is a protocol error). -/
theorem C8_whole_client_guards :
    (∀ (cl : base_client) (pass : Bytes) (dbindex : Int) (reply : Bytes),
        1 < cl.connections.length →
        auth cl pass reply
            = ([], .error (.runtime_error (bs "feature is not available in cluster mode")))
          ∧ select_db cl dbindex reply
            = ([], .error (.runtime_error (bs "feature is not available in cluster mode")))
          ∧ flushall cl reply
            = ([], .error (.runtime_error (bs "feature is not available in cluster mode"))))
    ∧ (∀ (cl : base_client) (pass : Bytes) (dbindex : Int),
        cl.connections.length = 1 →
        auth cl pass (bs "+OK\r\n")
            = ([((cl.connections.getD 0 dummy_con).socket, makecmd [bs "AUTH", pass])],
               .ok ())
          ∧ select_db cl dbindex (bs "+OK\r\n")
            = ([((cl.connections.getD 0 dummy_con).socket,
                 makecmd [bs "SELECT", intRepr dbindex])], .ok ())
          ∧ flushall cl (bs "+OK\r\n")
            = ([((cl.connections.getD 0 dummy_con).socket, makecmd [bs "FLUSHALL"])],
               .ok ())
          ∧ (auth cl pass (bs "+NO\r\n")).2
            = .error (.protocol_error (bs "expected OK response"))) := by
  constructor
  · intro cl pass dbindex reply hc
    exact ⟨by unfold auth; rw [if_pos hc],
           by unfold select_db; rw [if_pos hc],
           by unfold flushall; rw [if_pos hc]⟩
  · intro cl pass dbindex hc
    have hn : ¬ 1 < cl.connections.length := by omega
    have hok : (recv_ok_reply (bs "+OK\r\n")).map (fun _ => ()) = (.ok () : Except client_exception Unit) := by decide
    have hno : (recv_ok_reply (bs "+NO\r\n")).map (fun _ => ())
        = (.error (.protocol_error (bs "expected OK response")) : Except client_exception Unit) := by decide
    exact ⟨by unfold auth; rw [if_neg hn, hok],
           by unfold select_db; rw [if_neg hn, hok],
           by unfold flushall; rw [if_neg hn, hok],
           by unfold auth; rw [if_neg hn, hno]⟩

/-- Witness for C8 at the concrete two- and one-connection clients. -/
theorem C8_whole_client_guards_witness :
    auth cl_two (bs "pw") (bs "+OK\r\n")
        = ([], .error (.runtime_error (bs "feature is not available in cluster mode")))
    ∧ auth cl_one (bs "pw") (bs "+OK\r\n")
        = ([((cl_one.connections.getD 0 dummy_con).socket, makecmd [bs "AUTH", bs "pw"])],
           .ok ()) :=
  ⟨(C8_whole_client_guards.1 cl_two (bs "pw") 0 (bs "+OK\r\n") (by decide)).1,
   (C8_whole_client_guards.2 cl_one (bs "pw") 0 (by decide)).1⟩

theorem mset_go_agree (cl : base_client) (keys : List Bytes) (s : Int)
    (hmulti : get_socket_multi cl keys = .ok s) :
    ∀ (pairs : List (Bytes × Bytes)) (m : CmdMap),
      (∀ p ∈ pairs, get_socket cl p.1 = s) →
      mset_written_go cl keys pairs m = .ok (mset_corrected_go cl pairs m) := by
  intro pairs
  induction pairs with
  | nil => intro m _; rfl
  | cons p ps ih =>
    intro m h
    obtain ⟨k, v⟩ := p
    have hk : get_socket cl k = s := h (k, v) (by simp)
    unfold mset_written_go mset_corrected_go
    simp only [hmulti, hk]
    exact ih _ (fun q hq => h q (by simp [hq]))

/-- Claim C9 counterexample: at the two-connection client with keys `a`
and `b` (which hash to different connections), `mset` as written rejects
the whole operation with the cluster-mode error and sends nothing, while
the corrected variant that routes the i-th pair by hashing `keys[i]` alone
sends one `MSET` per connection and succeeds — so the two observable
behaviours differ, contradicting the claim that they are equal for every
client and input. -/
theorem C9_counterexample :
    mset_written cl_two [bs "a", bs "b"] [bs "x", bs "y"] (fun _ => bs "+OK\r\n")
        = ([], .error (.runtime_error (bs "not possible in cluster mode")))
    ∧ mset_corrected cl_two [bs "a", bs "b"] [bs "x", bs "y"] (fun _ => bs "+OK\r\n")
        = ([(100, makecmd [bs "MSET", bs "a", bs "x"]),
            (200, makecmd [bs "MSET", bs "b", bs "y"])], .ok ())
    ∧ mset_written cl_two [bs "a", bs "b"] [bs "x", bs "y"] (fun _ => bs "+OK\r\n")
        ≠ mset_corrected cl_two [bs "a", bs "b"] [bs "x", bs "y"] (fun _ => bs "+OK\r\n") :=
  ⟨by decide, by decide, by decide⟩

/-- Claim C9 as amended: whenever every key routes to the same connection
(in particular always on a single-connection client), the observable
behaviour of `mset` as written — sends and outcome — equals that of the
corrected variant that routes the i-th pair by hashing `keys[i]` alone;
when keys span different connections the as-written `mset` rejects the
operation without sending, while the corrected variant sends per-connection
commands. -/
theorem C9_mset_routing_amended (cl : base_client) (keys values : List Bytes)
    (replies : Int → Bytes) (hlen : keys.length = values.length)
    (hsame : ∀ k1 k2, k1 ∈ keys → k2 ∈ keys → get_socket cl k1 = get_socket cl k2) :
    mset_written cl keys values replies = mset_corrected cl keys values replies := by
  cases keys with
  | nil => rfl
  | cons k ks =>
    have hmulti : get_socket_multi cl (k :: ks) = .ok (get_socket cl k) :=
      get_socket_multi_all_eq cl k ks (fun q hq => hsame q k hq (by simp))
    have hgo := mset_go_agree cl (k :: ks) (get_socket cl k) hmulti
      ((k :: ks).zip values) []
      (fun p hp => hsame p.1 k (List.of_mem_zip hp).1 (by simp))
    unfold mset_written mset_corrected
    rw [hgo]

/-- Witness for C9 (amended): at the one-connection client the two
variants agree on a concrete input. -/
theorem C9_mset_routing_amended_witness :
    mset_written cl_one [bs "a", bs "b"] [bs "x", bs "y"] (fun _ => bs "+OK\r\n")
      = mset_corrected cl_one [bs "a", bs "b"] [bs "x", bs "y"] (fun _ => bs "+OK\r\n") :=
  C9_mset_routing_amended cl_one [bs "a", bs "b"] [bs "x", bs "y"]
    (fun _ => bs "+OK\r\n") (by decide)
    (by intro k1 k2 h1 h2; fin_cases h1 <;> fin_cases h2 <;> decide)

/-- Claim C10, the failing draw: `randomkey` draws its connection index
from `boost::uniform_int<>(0, connections_.size())`, whose closed interval
includes the upper bound, so for every connection count `n` the draw `n`
itself is possible and is not strictly less than `n` — in particular with
2 connections the possible draw 2 indexes the two-element connection
sequence out of bounds. -/
theorem C10_randomkey_draw_out_of_bounds :
    (randomkey_possible_draw 2 2 = true ∧ ¬ (2 < 2))
    ∧ ∀ n : Nat, randomkey_possible_draw n n = true ∧ ¬ (n < n) := by
  refine ⟨⟨by decide, by decide⟩,
    fun n => ⟨by simp [randomkey_possible_draw], by omega⟩⟩
example : recv_bulk_reply (bs "$3\r\nfoo\r\n") = .ok (bs "foo", []) := by decide
example : recv_bulk_reply (bs "$-1\r\n") = .ok (missing_value, []) := by decide
example : recv_multi_bulk_reply (bs "*2\r\n$1\r\na\r\n$1\r\nb\r\n") =
    .ok ([bs "a", bs "b"], 2, []) := by decide
example : recv_int_reply (bs ":42\r\n") = .ok (42, []) := by decide
example : recv_int_reply (bs ":abc\r\n") = .error .bad_lexical_cast := by decide
example : makecmd [bs "SET", bs "foo", bs "bar"] =
    bs "*3\r\n$3\r\nSET\r\n$3\r\nfoo\r\n$3\r\nbar\r\n" := by decide
example : parse_int? (bs "-1") = some (-1) := by decide
example : parse_int? (bs "abc") = none := by decide
